import Mathlib

/-
  Verification development for the x8 hidden-parameter discovery engine
  (src/structs.rs).  Strings are modelled as lists of characters; the
  string primitives below mirror the semantics of the Rust standard
  library functions used by the source (`str::contains`, `str::replace`,
  `str::split`, `str::matches(..).count()`), scanning left to right over
  non-overlapping occurrences.  Randomness (`random_line`) is modelled by
  an explicit supply `Nat → Str` consumed in program order.
-/

namespace X8

abbrev Str := List Char

def str (s : String) : Str := s.toList

/-- Does `s` start with the pattern `pat`? (first argument is the pattern) -/
def startsWithL : Str → Str → Bool
  | [], _ => true
  | _ :: _, [] => false
  | p :: ps, c :: cs => p == c && startsWithL ps cs

/-- Rust `str::contains`: does `s` contain `pat` as a contiguous substring? -/
def containsSub : Str → Str → Bool
  | [], pat => startsWithL pat []
  | c :: t, pat => startsWithL pat (c :: t) || containsSub t pat

/-- Worker for `replaceAll`: `skip` counts matched characters still to drop. -/
def replGo (pat rep : Str) : Nat → Str → Str
  | _, [] => []
  | Nat.succ k, _ :: t => replGo pat rep k t
  | 0, c :: t =>
    if startsWithL pat (c :: t) then
      rep ++ replGo pat rep (pat.length - 1) t
    else
      c :: replGo pat rep 0 t

/-- Rust `str::replace`: replace every non-overlapping occurrence of `pat`
in `s` (scanning left to right) by `rep`. -/
def replaceAll (s pat rep : Str) : Str :=
  if pat = [] then s else replGo pat rep 0 s

/-- Worker for `splitAll`: `cur` is the segment being accumulated, `skip`
counts matched characters still to drop. -/
def splitGo (pat : Str) : Str → Nat → Str → List Str
  | cur, _, [] => [cur]
  | cur, Nat.succ k, _ :: t => splitGo pat cur k t
  | cur, 0, c :: t =>
    if startsWithL pat (c :: t) then
      cur :: splitGo pat [] (pat.length - 1) t
    else
      splitGo pat (cur ++ [c]) 0 t

/-- Rust `str::split` on a non-empty literal pattern. -/
def splitAll (s pat : Str) : List Str :=
  if pat = [] then [s] else splitGo pat [] 0 s

/-- Worker for `countOcc`. -/
def countGo (pat : Str) : Nat → Str → Nat
  | _, [] => 0
  | Nat.succ k, _ :: t => countGo pat k t
  | 0, c :: t =>
    if startsWithL pat (c :: t) then
      1 + countGo pat (pat.length - 1) t
    else
      countGo pat 0 t

/-- Rust `str::matches(pat).count()`: number of non-overlapping occurrences
of `pat` in `s`, scanning left to right. -/
def countOcc (s pat : Str) : Nat :=
  if pat = [] then s.length + 1 else countGo pat 0 s

def toLowerStr (s : Str) : Str := s.map Char.toLower

/-- `Response::count`: occurrences of `string` in the lowercased body text
(the needle itself is not lowercased). -/
def countIn (text needle : Str) : Nat := countOcc (toLowerStr text) needle

def digitChar (n : Nat) : Char := Char.ofNat (48 + n)

def natDigits : Nat → Nat → List Char
  | 0, _ => []
  | fuel + 1, n =>
    if n < 10 then [digitChar n]
    else natDigits fuel (n / 10) ++ [digitChar (n % 10)]

/-- Rust `usize::to_string`. -/
def natToChars (n : Nat) : Str := natDigits (n + 1) n

/-- Byte-lexicographic comparison of strings (Rust `String` ordering). -/
def strLe : Str → Str → Bool
  | [], _ => true
  | _ :: _, [] => false
  | a :: as, b :: bs =>
    if a.toNat < b.toNat then true
    else if b.toNat < a.toNat then false
    else strLe as bs

def insertSorted (x : Str) : List Str → List Str
  | [] => [x]
  | y :: t => if strLe x y then x :: y :: t else y :: insertSorted x t

/-- Rust `Vec::sort` on strings (we only use that the result is sorted). -/
def sortStr : List Str → List Str
  | [] => []
  | x :: t => insertSorted x (sortStr t)

/-- Pair each list element with an index starting at `n`. -/
def enumFrom {α : Type} : Nat → List α → List (Nat × α)
  | _, [] => []
  | n, x :: t => (n, x) :: enumFrom (n + 1) t

/-- Rust `Vec::join`. -/
def joinStr (sep : Str) : List Str → Str
  | [] => []
  | [x] => x
  | x :: y :: t => x ++ sep ++ joinStr sep (y :: t)

inductive DataType
  | Json
  | Urlencoded
deriving DecidableEq

inductive InjectionPlace
  | Path
  | Body
  | Headers
  | HeaderValue
deriving DecidableEq

/-- `RequestDefaults::fix_path_and_body`: adds the `%s` injection sentinel
where necessary. -/
def fixPathAndBody (path body joiner : Str) (ip : InjectionPlace) (dt : DataType) :
    Str × Str :=
  match ip with
  | InjectionPlace.Body =>
    if containsSub body (str ("%s")) then (path, body)
    else if body = [] then
      match dt with
      | DataType.Urlencoded => (path, str ("%s"))
      | DataType.Json => (path, str ("\x7b%s\x7d"))
    else
      match dt with
      | DataType.Urlencoded => (path, body ++ joiner ++ str ("%s"))
      | DataType.Json => (path, body.dropLast ++ str (", %s\x7d"))
  | InjectionPlace.Path =>
    if containsSub path (str ("%s")) then (path, body)
    else if containsSub path (str ("?")) then (joiner ++ path ++ str ("%s"), body)
    else if joiner = str ("&") then (path ++ str ("?%s"), body)
    else (path ++ str ("%s"), body)
  | _ => (path, body)

/-- Template data shared by all requests (the fields of `RequestDefaults`
that `Request::prepare` and `Response` analysis read). -/
structure RequestDefaults where
  method : Str
  path : Str
  custom_headers : List (Str × Str)
  template : Str
  joiner : Str
  encode : Bool
  is_json : Bool
  body : Str
  injection_place : InjectionPlace
deriving DecidableEq

structure Request where
  defaults : RequestDefaults
  path : Str
  method : Str
  headers : List (Str × Str)
  parameters : List Str
  prepared_parameters : List (Str × Str)
  non_random_parameters : List (Str × Str)
  body : Str
  prepared : Bool
deriving DecidableEq

def userAgentHeader : Str × Str :=
  (str ("User-Agent"),
   str ("Mozilla/5.0 (Windows NT 10.0; Win64; x64) AppleWebKit/537.36 (KHTML, like Gecko) Chrome/99.0.4844.82 Safari/537.36"))

/-- `Request::new`. -/
def requestNew (d : RequestDefaults) (parameters : List Str) : Request :=
  { defaults := d
    method := d.method
    path := d.path
    headers := userAgentHeader :: d.custom_headers
    body := []
    parameters := parameters
    prepared_parameters := []
    non_random_parameters := []
    prepared := false }

/-- `Headers::contains_key` on a header list or an association list:
exact, case-sensitive key comparison. -/
def containsKeyA (l : List (Str × Str)) (k : Str) : Bool :=
  l.any (fun p => p.1 == k)

/-- `HashMap::insert` modelled on an insertion-ordered association list:
a later value for the same key overwrites the earlier one. -/
def insertOverwrite (l : List (Str × Str)) (k v : Str) : List (Str × Str) :=
  if containsKeyA l k then l.map (fun p => if p.1 == k then (k, v) else p)
  else l ++ [(k, v)]

/-- `HashMap::from_iter` over key/value pairs (later duplicates win). -/
def fromIter (l : List (Str × Str)) : List (Str × Str) :=
  l.foldl (fun acc p => insertOverwrite acc p.1 p.2) []

/-- The `FRAGMENT` percent-encoding `AsciiSet`: CONTROLS plus the listed
ASCII characters. -/
def fragmentSet (c : Char) : Bool :=
  c.toNat < 32 || c.toNat == 127 || c == ' ' || c == '"' || c == '<' ||
    c == '>' || c.toNat == 96 || c == '&' || c == '#' || c == ';' ||
    c == '/' || c == '=' || c == '%'

def utf8Bytes (c : Char) : List Nat :=
  let n := c.toNat
  if n < 128 then [n]
  else if n < 2048 then [192 + n / 64, 128 + n % 64]
  else if n < 65536 then [224 + n / 4096, 128 + (n / 64) % 64, 128 + n % 64]
  else [240 + n / 262144, 128 + (n / 4096) % 64, 128 + (n / 64) % 64, 128 + n % 64]

def hexDigit (n : Nat) : Char :=
  if n < 10 then Char.ofNat (48 + n) else Char.ofNat (55 + n)

def pctByte (b : Nat) : Str := ['%', hexDigit (b / 16), hexDigit (b % 16)]

/-- `utf8_percent_encode` with the `FRAGMENT` set: bytes in the set and all
non-ASCII bytes become `%XX`. -/
def percentEncode (s : Str) : Str :=
  s.foldr
    (fun c acc =>
      (if fragmentSet c || decide (128 ≤ c.toNat) then
        (utf8Bytes c).foldr (fun b a => pctByte b ++ a) []
      else [c]) ++ acc)
    []

/-- `Request::make_query`: render each prepared parameter through the
template and join; percent-encode when the encode flag is set. -/
def makeQuery (d : RequestDefaults) (pp : List (Str × Str)) : Str :=
  let q := joinStr d.joiner
    (pp.map (fun p =>
      replaceAll (replaceAll d.template (str ("\x7bk\x7d")) p.1) (str ("\x7bv\x7d")) p.2))
  if d.encode then percentEncode q else q

def pctEqPat : Str := str ("%=%")

def rndPat : Str := str ("\x7b\x7brandom\x7d\x7d")

/-- The non-random parameter map built by `prepare`: names containing
`%=%` are split by it; the first segment is the name, the second segment
(`next()` called twice on the split iterator) is the value. -/
def nonRandomPairs (params : List Str) : List (Str × Str) :=
  fromIter
    ((params.filter (fun x => containsSub x pctEqPat)).map
      (fun x => ((splitAll x pctEqPat).headD [],
                 ((splitAll x pctEqPat).drop 1).headD [])))

/-- The names that receive fresh random values in `prepare`: supplied
parameters plus the additional sentinel (`""` when absent), keeping only
non-empty names without `%=%`. -/
def randomKeys (params : List Str) (additional : Option Str) : List Str :=
  (params ++ [additional.getD []]).filter
    (fun x => !x.isEmpty && !containsSub x pctEqPat)

/-- `Request::prepare`, with randomness supplied explicitly: each
`random_line(5)` call consumes `supply idx` for the next index, in program
order (prepared parameters, then custom headers, then path, then body,
then the injection-place branch).  Returns the prepared request and the
next unused supply index. -/
def prepare (supply : Nat → Str) (r : Request) (additional : Option Str) (idx : Nat) :
    Request × Nat :=
  if r.prepared then (r, idx)
  else
    let d := r.defaults
    let nonRandom := nonRandomPairs r.parameters
    let rk := randomKeys r.parameters additional
    let preparedParams :=
      fromIter ((enumFrom idx rk).map (fun p => (p.2, supply p.1)) ++ nonRandom)
    let i1 := idx + rk.length
    let headers1 :=
      if d.injection_place = InjectionPlace.HeaderValue then r.headers
      else r.headers ++
        (enumFrom i1 d.custom_headers).map
          (fun p => (p.2.1, replaceAll p.2.2 rndPat (supply p.1)))
    let i2 := if d.injection_place = InjectionPlace.HeaderValue then i1
      else i1 + d.custom_headers.length
    let path1 := replaceAll d.path rndPat (supply i2)
    let body1 := replaceAll d.body rndPat (supply (i2 + 1))
    let i3 := i2 + 2
    let query := makeQuery d preparedParams
    match d.injection_place with
    | InjectionPlace.Path =>
      ({ r with prepared := true, non_random_parameters := nonRandom,
                prepared_parameters := preparedParams, headers := headers1,
                path := replaceAll path1 (str ("%s")) query, body := body1 }, i3)
    | InjectionPlace.Body =>
      ({ r with prepared := true, non_random_parameters := nonRandom,
                prepared_parameters := preparedParams,
                headers :=
                  if containsKeyA d.custom_headers (str ("Content-Type")) then headers1
                  else headers1 ++
                    [(str ("Content-Type"),
                      if d.is_json then str ("application/json")
                      else str ("application/x-www-form-urlencoded"))],
                path := path1,
                body := replaceAll body1 (str ("%s")) query }, i3)
    | InjectionPlace.HeaderValue =>
      ({ r with prepared := true, non_random_parameters := nonRandom,
                prepared_parameters := preparedParams,
                headers := headers1 ++
                  (enumFrom i3 d.custom_headers).map
                    (fun p => (p.2.1,
                      replaceAll (replaceAll p.2.2 rndPat (supply p.1)) (str ("%s")) query)),
                path := path1, body := body1 }, i3 + d.custom_headers.length)
    | InjectionPlace.Headers =>
      ({ r with prepared := true, non_random_parameters := nonRandom,
                prepared_parameters := preparedParams,
                headers := headers1 ++
                  fromIter ((enumFrom i3 r.parameters).map (fun p => (p.2, supply p.1))),
                path := path1, body := body1 }, i3 + r.parameters.length)

structure Response where
  time : Nat
  code : Nat
  headers : List (Str × Str)
  text : Str
  reflected_parameters : List (Str × Nat)
  additional_parameter : Str
  request : Request
deriving DecidableEq

/-- `Request::send_by` with the transport modelled as an oracle giving the
outcome of attempt 0 and attempt 1: on a first failure the code sleeps 10
seconds (recorded in the returned list) and retries exactly once. -/
def sendBy (attempt : Nat → Option Response) : Option Response × List Nat :=
  match attempt 0 with
  | some v => (some v, [])
  | none =>
    match attempt 1 with
    | some v => (some v, [10])
    | none => (none, [10])

/-- `Request::empty_response`: prepares the request (with no additional
parameter) and returns the placeholder response. -/
def emptyResponse (supply : Nat → Str) (r : Request) (idx : Nat) : Response :=
  { time := 0
    code := 0
    headers := []
    text := []
    reflected_parameters := []
    additional_parameter := []
    request := (prepare supply r none idx).1 }

/-- Baseline count used by `fill_reflected_parameters`:
`initial_response.count(v)` when the baseline is set, `0` otherwise. -/
def baseCount (initial : Option Str) (v : Str) : Nat :=
  match initial with
  | some t => countIn t v
  | none => 0

/-- The parameters `fill_reflected_parameters` iterates: prepared
parameters minus the non-random subset (when the latter is non-empty). -/
def activeParams (prepared nonRandom : List (Str × Str)) : List (Str × Str) :=
  if nonRandom = [] then prepared
  else prepared.filter (fun p => !containsKeyA nonRandom p.1)

/-- Worker for `fillReflectedParameters`; the `usize` subtraction
`self.count(v) - initial.count(v)` is fallible (it panics on underflow),
so the model returns `none` when the current count is below the baseline
count. -/
def fillGo (thisText : Str) (base : Str → Nat) (amount : Nat) :
    List (Str × Str) → Option (List (Str × Nat))
  | [] => some []
  | (k, v) :: t =>
    let cur := countIn thisText v
    if cur < base v then none
    else
      match fillGo thisText base amount t with
      | none => none
      | some rest =>
        if cur - base v ≠ amount then some ((k, cur - base v) :: rest) else some rest

/-- `Response::fill_reflected_parameters`. -/
def fillReflectedParameters (thisText : Str) (initial : Option Str) (amount : Nat)
    (prepared nonRandom : List (Str × Str)) : Option (List (Str × Nat)) :=
  fillGo thisText (baseCount initial) amount (activeParams prepared nonRandom)

/-- One step of the grouping loop in `proceed_reflected_parameters`:
append `k` to the group of delta `v`, creating the group if absent. -/
def addToGroups (acc : List (Nat × List Str)) (k : Str) (v : Nat) :
    List (Nat × List Str) :=
  if acc.any (fun g => g.1 == v) then
    acc.map (fun g => if g.1 == v then (g.1, g.2 ++ [k]) else g)
  else acc ++ [(v, [k])]

/-- `parameters_by_reflections`: reflected names grouped by their delta,
in insertion order. -/
def groupByDelta (l : List (Str × Nat)) : List (Nat × List Str) :=
  l.foldl (fun acc p => addToGroups acc p.1 p.2) []

/-- `Response::proceed_reflected_parameters`, as a function of the
reflected-parameters map, the number of prepared parameters, and the
additional sentinel parameter name. -/
def proceedReflectedParameters (reflected : List (Str × Nat)) (preparedLen : Nat)
    (additional : Str) : Option Str × Bool :=
  if reflected = [] then (none, false)
  else if reflected.length = 1 then ((reflected.map Prod.fst).head?, false)
  else if preparedLen = 2 ∧ reflected.length = 2 then
    (((reflected.map Prod.fst).filter (fun x => !(x == additional))).head?, false)
  else
    let groups := groupByDelta reflected
    if groups.length = 2 then
      match groups.find? (fun g => g.2.length == 1) with
      | some g => (g.2.head?, true)
      | none => (none, true)
    else (none, true)

def mkCheckTag (d : Str) (c : Nat) : Str :=
  d ++ str ("(") ++ natToChars c ++ str (")")

def mkPushTag (d : Str) (c : Nat) : Str :=
  d ++ str (" (") ++ natToChars c ++ str (")")

/-- The `while diffs.contains(...)` loop of `Response::compare`: the least
`c` (starting from the given one) whose check tag is absent from `diffs`;
`fuel = diffs.length + 1` always suffices since the tags are distinct. -/
def firstFresh (diffs : List Str) (d : Str) : Nat → Nat → Nat
  | c, 0 => c
  | c, fuel + 1 =>
    if diffs.contains (mkCheckTag d c) then firstFresh diffs d (c + 1) fuel else c

/-- One iteration of the diff loop in `Response::compare`. -/
def compareStep (old : List Str) (diffs : List Str) (d : Str) : List Str :=
  if !diffs.contains d && !old.contains d then diffs ++ [d]
  else if !old.contains d then
    diffs ++ [mkPushTag d (firstFresh diffs d 1 (diffs.length + 1))]
  else diffs

/-- The diff-vector part of `Response::compare`, as a function of the
lines returned by the external diff oracle and the caller's `old_diffs`. -/
def compareDiffs (oracle old : List Str) : List Str :=
  sortStr (oracle.foldl (compareStep old) [])

/-- A deterministic, injective stand-in for the random supply, used for
concrete evaluations: the decimal rendering of the index. -/
def natSupply : Nat → Str := fun n => natToChars n

/-- The field values of `RequestDefaults::default()` that the model keeps. -/
def baseDefaults : RequestDefaults :=
  { method := str ("GET")
    path := str ("/")
    custom_headers := []
    template := str ("\x7bk\x7d=\x7bv\x7d")
    joiner := str ("&")
    encode := false
    is_json := false
    body := []
    injection_place := InjectionPlace.Path }

/-- Body-injection defaults whose body holds two `\x7b\x7brandom\x7d\x7d`
occurrences. -/
def c2Defaults : RequestDefaults :=
  { baseDefaults with
      body := str ("\x7b\x7brandom\x7d\x7d-\x7b\x7brandom\x7d\x7d")
      injection_place := InjectionPlace.Body }

/-- Path-injection defaults used for the `%=%` parameter experiments. -/
def c5Defaults : RequestDefaults := baseDefaults

/-- Body-injection defaults with a lowercase `content-type` custom header. -/
def c10Defaults : RequestDefaults :=
  { baseDefaults with
      custom_headers := [(str ("content-type"), str ("x"))]
      body := str ("%s")
      injection_place := InjectionPlace.Body }

/-- Invariant characterizing the grouping accumulator of
`proceed_reflected_parameters`: keys are the distinct deltas of `l` and
each group lists, in order, the names whose delta is the group's key. -/
def GSpec (l : List (Str × Nat)) (G : List (Nat × List Str)) : Prop :=
  (G.map Prod.fst).Nodup ∧
  (∀ g ∈ G, g.2 = (l.filter (fun p => p.2 == g.1)).map Prod.fst) ∧
  (∀ dd : Nat, dd ∈ l.map Prod.snd ↔ dd ∈ G.map Prod.fst)

/- ------------------------------------------------------------------ -/
/- Theorems                                                           -/
/- ------------------------------------------------------------------ -/

/-- Claim C3 counterexample: for a path containing `?` and no `%s`, the
Path branch of `fix_path_and_body` does not place the fragment
`<joiner>%s` in front of the path. -/
theorem fix_path_query_claim_false :
    fixPathAndBody (str ("/p?a=1")) [] (str ("&")) InjectionPlace.Path
        DataType.Urlencoded
      ≠ (str ("&%s/p?a=1"), []) := by decide

/-- Claim C3 (amended): for every path that does not contain `%s` but does
contain `?`, the Path branch of `fix_path_and_body` prepends the joiner
before the path and appends `%s` after it (result `<joiner><path>%s`),
leaving the body unchanged. -/
theorem fix_path_query_joiner_then_sentinel (path body joiner : Str) (dt : DataType)
    (h1 : containsSub path (str ("%s")) = false)
    (h2 : containsSub path (str ("?")) = true) :
    fixPathAndBody path body joiner InjectionPlace.Path dt
      = (joiner ++ path ++ str ("%s"), body) := by
  cases dt <;> simp [fixPathAndBody, h1, h2]

/-- Concrete instance of the amended C3 statement. -/
theorem fix_path_query_joiner_then_sentinel_witness :
    containsSub (str ("/p?a=1")) (str ("%s")) = false ∧
    containsSub (str ("/p?a=1")) (str ("?")) = true ∧
    fixPathAndBody (str ("/p?a=1")) [] (str ("&")) InjectionPlace.Path
        DataType.Urlencoded
      = (str ("&/p?a=1%s"), []) :=
  ⟨by decide, by decide,
   fix_path_query_joiner_then_sentinel _ _ _ _ (by decide) (by decide)⟩

/-- Claim C4: in the Body branch of `fix_path_and_body` the path is
returned unchanged and only the body is transformed: a body containing
`%s` is left as is; an empty body becomes `%s` (Urlencoded) or
`\x7b%s\x7d` (JSON); a non-empty body gets `<joiner>%s` appended
(Urlencoded), while under JSON the terminating `\x7d` is removed and
`, %s\x7d` is appended. -/
theorem fix_body_branches (path body joiner : Str)
    (hb : body ≠ []) (hs : containsSub body (str ("%s")) = false) :
    (∀ b2 : Str, containsSub b2 (str ("%s")) = true →
        ∀ dt, fixPathAndBody path b2 joiner InjectionPlace.Body dt = (path, b2)) ∧
    fixPathAndBody path [] joiner InjectionPlace.Body DataType.Urlencoded
      = (path, str ("%s")) ∧
    fixPathAndBody path [] joiner InjectionPlace.Body DataType.Json
      = (path, str ("\x7b%s\x7d")) ∧
    fixPathAndBody path body joiner InjectionPlace.Body DataType.Urlencoded
      = (path, body ++ joiner ++ str ("%s")) ∧
    (∀ b3 : Str, body = b3 ++ ['\x7d'] →
        fixPathAndBody path body joiner InjectionPlace.Body DataType.Json
          = (path, b3 ++ str (", %s\x7d"))) := by
  have hempty : containsSub [] (str ("%s")) = false := by decide
  refine ⟨?_, ?_, ?_, ?_, ?_⟩
  · intro b2 h2 dt; cases dt <;> simp [fixPathAndBody, h2]
  · simp [fixPathAndBody, hempty]
  · simp [fixPathAndBody, hempty]
  · simp [fixPathAndBody, hs, hb]
  · intro b3 h3
    simp only [fixPathAndBody, hs, Bool.false_eq_true, if_false, if_neg hb]
    rw [h3, List.dropLast_concat]

/-- Concrete instance of C4: the spec's JSON example
(body `\x7b"something":1\x7d` becomes `\x7b"something":1, %s\x7d`). -/
theorem fix_body_branches_witness :
    (str ("\x7b\"something\":1\x7d") : Str) ≠ [] ∧
    containsSub (str ("\x7b\"something\":1\x7d")) (str ("%s")) = false ∧
    fixPathAndBody (str ("/")) (str ("\x7b\"something\":1\x7d")) (str (", "))
        InjectionPlace.Body DataType.Json
      = (str ("/"), str ("\x7b\"something\":1") ++ str (", %s\x7d")) :=
  ⟨by decide, by decide,
   (fix_body_branches (str ("/")) (str ("\x7b\"something\":1\x7d")) (str (", "))
      (by decide) (by decide)).2.2.2.2 (str ("\x7b\"something\":1")) (by decide)⟩

/-- Claim C6 (code-bug evaluation): when the diff oracle yields the same
line three times and `old_diffs` is empty, `compare` pushes the tag
`d (1)` twice — the freshness check tests `d(1)` (no space) while the
push uses `d (1)` — instead of producing `d (2)` for the third repeat. -/
theorem compare_dup_suffix_eval :
    compareDiffs [str ("d"), str ("d"), str ("d")] []
      = [str ("d"), str ("d (1)"), str ("d (1)")] ∧
    compareDiffs [str ("d"), str ("d"), str ("d")] []
      ≠ [str ("d"), str ("d (1)"), str ("d (2)")] := by decide

/-- Claim C7: `send_by` retries exactly once after a 10-second sleep on a
transport error and fails only after two consecutive failures; the
`empty_response` placeholder has status code 0, empty body text, no
headers, no reflected parameters, and an empty additional-parameter name. -/
theorem send_retry_and_empty (attempt : Nat → Option Response)
    (supply : Nat → Str) (r : Request) (idx : Nat) :
    (∀ v, attempt 0 = some v → sendBy attempt = (some v, [])) ∧
    (attempt 0 = none → ∀ v, attempt 1 = some v → sendBy attempt = (some v, [10])) ∧
    (attempt 0 = none → attempt 1 = none → sendBy attempt = (none, [10])) ∧
    (emptyResponse supply r idx).code = 0 ∧
    (emptyResponse supply r idx).text = [] ∧
    (emptyResponse supply r idx).headers = [] ∧
    (emptyResponse supply r idx).reflected_parameters = [] ∧
    (emptyResponse supply r idx).additional_parameter = [] := by
  refine ⟨?_, ?_, ?_, rfl, rfl, rfl, rfl, rfl⟩
  · intro v h; simp [sendBy, h]
  · intro h0 v h1; simp [sendBy, h0, h1]
  · intro h0 h1; simp [sendBy, h0, h1]

/-- Concrete instance of C7: both attempts fail, one 10-second retry
sleep is recorded, and the placeholder fields are as specified. -/
theorem send_retry_and_empty_witness :
    sendBy (fun _ => none) = (none, [10]) ∧
    (emptyResponse natSupply (requestNew baseDefaults []) 0).code = 0 ∧
    (emptyResponse natSupply (requestNew baseDefaults []) 0).text = [] ∧
    (emptyResponse natSupply (requestNew baseDefaults []) 0).headers = [] :=
  ⟨(send_retry_and_empty (fun _ => none) natSupply (requestNew baseDefaults []) 0).2.2.1
      rfl rfl,
   (send_retry_and_empty (fun _ => none) natSupply (requestNew baseDefaults []) 0).2.2.2.1,
   (send_retry_and_empty (fun _ => none) natSupply (requestNew baseDefaults []) 0).2.2.2.2.1,
   (send_retry_and_empty (fun _ => none) natSupply (requestNew baseDefaults []) 0).2.2.2.2.2.1⟩

/-- `prepare` always leaves the `prepared` flag set. -/
theorem prepare_sets_prepared (supply : Nat → Str) (r : Request)
    (add : Option Str) (idx : Nat) :
    (prepare supply r add idx).1.prepared = true := by
  by_cases h : r.prepared
  · simp [prepare, h]
  · simp only [prepare, h, if_false]
    cases r.defaults.injection_place <;> simp

/-- Claim C8: `prepare` is idempotent — on a request on which `prepare`
has already run, a second call (with any supply, any additional-parameter
argument, and any supply index) returns the request unchanged and
consumes no randomness. -/
theorem prepare_idempotent (supply supply2 : Nat → Str) (r : Request)
    (a1 a2 : Option Str) (i1 i2 : Nat) :
    prepare supply2 (prepare supply r a1 i1).1 a2 i2
      = ((prepare supply r a1 i1).1, i2) := by
  have h := prepare_sets_prepared supply r a1 i1
  generalize hg : (prepare supply r a1 i1).1 = r' at h ⊢
  simp [prepare, h]

/-- Claim C9 counterexample: on the empty-body placeholder response, with
a baseline whose text contains the prepared random value, the subtraction
in `fill_reflected_parameters` underflows (the model returns `none`). -/
theorem fill_underflow_counterexample :
    fillReflectedParameters [] (some (str ("abcde"))) 0
      [(str ("p"), str ("abcde"))] [] = none := by decide

/-- Totality of the `fill_reflected_parameters` loop under the
no-underflow hypothesis. -/
theorem fillGo_isSome (text : Str) (base : Str → Nat) (amount : Nat) :
    ∀ l : List (Str × Str), (∀ p ∈ l, base p.2 ≤ countIn text p.2) →
      ∃ res, fillGo text base amount l = some res := by
  intro l
  induction l with
  | nil => intro _; exact ⟨[], rfl⟩
  | cons p t ih =>
    intro h
    obtain ⟨res, hres⟩ := ih (fun q hq => h q (List.mem_cons_of_mem _ hq))
    have hle := h p (List.mem_cons_self _ _)
    obtain ⟨k, v⟩ := p
    simp only [fillGo, hres]
    rw [if_neg (by simp at hle; omega)]
    by_cases hc : countIn text v - base v ≠ amount
    · exact ⟨_, by rw [if_pos hc]⟩
    · exact ⟨_, by rw [if_neg hc]⟩

/-- Claim C9 (amended): the unsigned subtraction in
`fill_reflected_parameters` can underflow in general; it is total exactly
on responses whose text contains every active prepared value at least as
many times as the baseline does. -/
theorem fill_total_of_counts_ge (text : Str) (initial : Option Str) (amount : Nat)
    (prepared nonRandom : List (Str × Str))
    (h : ∀ p ∈ activeParams prepared nonRandom,
        baseCount initial p.2 ≤ countIn text p.2) :
    ∃ res, fillReflectedParameters text initial amount prepared nonRandom
      = some res :=
  fillGo_isSome text (baseCount initial) amount _ h

/-- Concrete instance of the amended C9 statement. -/
theorem fill_total_of_counts_ge_witness :
    ∃ res, fillReflectedParameters (str ("xabcdex")) (some []) 0
      [(str ("p"), str ("abcde"))] [] = some res :=
  fill_total_of_counts_ge (str ("xabcdex")) (some []) 0
    [(str ("p"), str ("abcde"))] [] (by decide)

/-- The element of `enumFrom n l` at position `j`. -/
theorem mem_enumFrom {α : Type} (l : List α) :
    ∀ (n j : Nat) (hj : j < l.length), (n + j, l.get ⟨j, hj⟩) ∈ enumFrom n l := by
  induction l with
  | nil => intro n j hj; simp at hj
  | cons x t ih =>
    intro n j hj
    cases j with
    | zero => simp [enumFrom]
    | succ j =>
      have h := ih (n + 1) j (by simpa using hj)
      have : n + (j + 1) = (n + 1) + j := by omega
      rw [this]
      exact List.mem_cons_of_mem _ h

/-- The parameter maps produced by `prepare` on a fresh request. -/
theorem prepare_params_fields (supply : Nat → Str) (d : RequestDefaults)
    (params : List Str) (add : Option Str) (idx : Nat) :
    (prepare supply (requestNew d params) add idx).1.non_random_parameters
      = nonRandomPairs params ∧
    (prepare supply (requestNew d params) add idx).1.prepared_parameters
      = fromIter ((enumFrom idx (randomKeys params add)).map
          (fun p => (p.2, supply p.1)) ++ nonRandomPairs params) := by
  cases hip : d.injection_place <;> constructor <;> simp [prepare, requestNew, hip]

/-- Claim C2 counterexample: with an injective supply, the two
`\x7b\x7brandom\x7d\x7d` occurrences in the body both receive the very
same replacement (`1-1`), never two consecutive fresh samples. -/
theorem prepare_random_shared_counterexample :
    (prepare natSupply (requestNew c2Defaults []) none 0).1.body = str ("1-1") ∧
    (∀ k, k < 8 → (prepare natSupply (requestNew c2Defaults []) none 0).1.body
        ≠ natToChars k ++ str ("-") ++ natToChars (k + 1)) := by decide

/-- Claim C2 (amended): during `prepare` (Body injection), each field gets
a single fresh random sample replacing all of that field's
`\x7b\x7brandom\x7d\x7d` occurrences — the custom header at position `j`
uses the sample at supply index `base + j`, the path the one at
`base + H`, and the body the one at `base + H + 1` (fields are sampled
independently of each other, occurrences within a field share one
sample). -/
theorem prepare_random_one_sample_each (supply : Nat → Str) (d : RequestDefaults)
    (params : List Str) (add : Option Str) (idx : Nat)
    (hip : d.injection_place = InjectionPlace.Body) :
    ((prepare supply (requestNew d params) add idx).1.path
        = replaceAll d.path rndPat
            (supply (idx + (randomKeys params add).length + d.custom_headers.length))) ∧
    ((prepare supply (requestNew d params) add idx).1.body
        = replaceAll
            (replaceAll d.body rndPat
              (supply (idx + (randomKeys params add).length + d.custom_headers.length + 1)))
            (str ("%s"))
            (makeQuery d (prepare supply (requestNew d params) add idx).1.prepared_parameters)) ∧
    (∀ j (hj : j < d.custom_headers.length),
        ((d.custom_headers.get ⟨j, hj⟩).1,
          replaceAll (d.custom_headers.get ⟨j, hj⟩).2 rndPat
            (supply (idx + (randomKeys params add).length + j)))
          ∈ (prepare supply (requestNew d params) add idx).1.headers) := by
  refine ⟨?_, ?_, ?_⟩
  · simp [prepare, requestNew, hip]
  · simp [prepare, requestNew, hip]
  · intro j hj
    have h0 := mem_enumFrom d.custom_headers (idx + (randomKeys params add).length) j hj
    have hmem : ((d.custom_headers.get ⟨j, hj⟩).1,
        replaceAll (d.custom_headers.get ⟨j, hj⟩).2 rndPat
          (supply (idx + (randomKeys params add).length + j)))
        ∈ (enumFrom (idx + (randomKeys params add).length) d.custom_headers).map
            (fun p => (p.2.1, replaceAll p.2.2 rndPat (supply p.1))) :=
      List.mem_map_of_mem _ h0
    have hhd : (prepare supply (requestNew d params) add idx).1.headers
        = ((userAgentHeader :: d.custom_headers) ++
            (enumFrom (idx + (randomKeys params add).length) d.custom_headers).map
              (fun p => (p.2.1, replaceAll p.2.2 rndPat (supply p.1)))) ++
          (if containsKeyA d.custom_headers (str ("Content-Type")) then []
           else [(str ("Content-Type"),
                  if d.is_json then str ("application/json")
                  else str ("application/x-www-form-urlencoded"))]) := by
      by_cases hct : containsKeyA d.custom_headers (str ("Content-Type")) = true <;>
        simp [prepare, requestNew, hip, hct]
    rw [hhd]
    exact List.mem_append_left _ (List.mem_append_right _ hmem)

/-- Concrete instance of the amended C2 statement. -/
theorem prepare_random_one_sample_each_witness :
    ((prepare natSupply (requestNew c2Defaults []) none 0).1.path
        = replaceAll c2Defaults.path rndPat
            (natSupply (0 + (randomKeys [] none).length + c2Defaults.custom_headers.length))) ∧
    ((prepare natSupply (requestNew c2Defaults []) none 0).1.body
        = replaceAll
            (replaceAll c2Defaults.body rndPat
              (natSupply (0 + (randomKeys [] none).length + c2Defaults.custom_headers.length + 1)))
            (str ("%s"))
            (makeQuery c2Defaults
              (prepare natSupply (requestNew c2Defaults []) none 0).1.prepared_parameters)) :=
  ⟨(prepare_random_one_sample_each natSupply c2Defaults [] none 0 rfl).1,
   (prepare_random_one_sample_each natSupply c2Defaults [] none 0 rfl).2.1⟩

/-- Claim C5 counterexample: the supplied name `admin%=%a%=%b` pins
`admin` to `a` (the second `%=%`-separated segment), not to the entire
remainder `a%=%b`. -/
theorem percent_eq_split_counterexample :
    (prepare natSupply (requestNew c5Defaults [str ("admin%=%a%=%b")]) none 0).1.non_random_parameters
      = [(str ("admin"), str ("a"))] ∧
    (prepare natSupply (requestNew c5Defaults [str ("admin%=%a%=%b")]) none 0).1.non_random_parameters
      ≠ [(str ("admin"), str ("a%=%b"))] := by decide

/-- Claim C5 (amended): a supplied name containing `%=%` is split by
`%=%`; the first segment is the parameter name and its fixed value is the
second segment (the text between the first and the second occurrence —
the whole remainder only when `%=%` occurs once).  The pair lands in both
the non-random set and the prepared-parameters mapping, and the name is
excluded from reflection anomaly counting. -/
theorem percent_eq_pins_second_segment (supply : Nat → Str) (d : RequestDefaults)
    (name n v : Str) (rest : List Str) (idx : Nat)
    (text : Str) (initial : Option Str) (amount : Nat)
    (hsplit : splitAll name pctEqPat = n :: v :: rest)
    (hc : containsSub name pctEqPat = true) :
    (prepare supply (requestNew d [name]) none idx).1.non_random_parameters = [(n, v)] ∧
    (prepare supply (requestNew d [name]) none idx).1.prepared_parameters = [(n, v)] ∧
    fillReflectedParameters text initial amount
      (prepare supply (requestNew d [name]) none idx).1.prepared_parameters
      (prepare supply (requestNew d [name]) none idx).1.non_random_parameters
      = some [] := by
  obtain ⟨h1, h2⟩ := prepare_params_fields supply d [name] none idx
  have hnr : nonRandomPairs [name] = [(n, v)] := by
    simp [nonRandomPairs, hc, hsplit, fromIter, insertOverwrite, containsKeyA]
  have hrk : randomKeys [name] none = [] := by
    simp [randomKeys, hc]
  rw [hrk, hnr] at h2
  simp only [enumFrom, List.map_nil, List.nil_append] at h2
  have h2' : (prepare supply (requestNew d [name]) none idx).1.prepared_parameters
      = [(n, v)] := by
    rw [h2]; simp [fromIter, insertOverwrite, containsKeyA]
  refine ⟨h1.trans hnr, h2', ?_⟩
  rw [h2', h1.trans hnr]
  simp [fillReflectedParameters, activeParams, containsKeyA, fillGo]

/-- Concrete instance of the amended C5 statement. -/
theorem percent_eq_pins_second_segment_witness :
    (prepare natSupply (requestNew c5Defaults [str ("admin%=%a%=%b")]) none 3).1.prepared_parameters
      = [(str ("admin"), str ("a"))] ∧
    fillReflectedParameters (str ("some page")) none 0
      (prepare natSupply (requestNew c5Defaults [str ("admin%=%a%=%b")]) none 3).1.prepared_parameters
      (prepare natSupply (requestNew c5Defaults [str ("admin%=%a%=%b")]) none 3).1.non_random_parameters
      = some [] :=
  ⟨(percent_eq_pins_second_segment natSupply c5Defaults (str ("admin%=%a%=%b"))
      (str ("admin")) (str ("a")) [str ("b")] 3 (str ("some page")) none 0
      (by decide) (by decide)).2.1,
   (percent_eq_pins_second_segment natSupply c5Defaults (str ("admin%=%a%=%b"))
      (str ("admin")) (str ("a")) [str ("b")] 3 (str ("some page")) none 0
      (by decide) (by decide)).2.2⟩

/-- Claim C10 counterexample: with a user-supplied `content-type` header
(lowercase) and Body injection, the materialized request carries three
case-insensitive content-type headers, not two (the custom header is
copied by `Request::new` and pushed again by `prepare`, and the exact
check misses the lowercase name, so `Content-Type` is still added). -/
theorem content_type_counterexample :
    ¬ (((prepare natSupply (requestNew c10Defaults []) none 0).1.headers.filter
          (fun h => toLowerStr h.1 == str ("content-type"))).length = 2) ∧
    ((prepare natSupply (requestNew c10Defaults []) none 0).1.headers.filter
        (fun h => toLowerStr h.1 == str ("content-type"))).length = 3 := by decide

/-- Claim C10 (amended): for Body injection, `prepare` appends a
Content-Type header (`application/json` when `is_json`, else
`application/x-www-form-urlencoded`) exactly when no custom header has
the exact, case-sensitively matching name `Content-Type`; a user-supplied
`content-type` header does not suppress the addition, and (because
`prepare` re-appends the custom headers) the materialized request then
carries three content-type headers. -/
theorem prepare_body_content_type (supply : Nat → Str) (r : Request)
    (add : Option Str) (idx : Nat)
    (hp : r.prepared = false) (hip : r.defaults.injection_place = InjectionPlace.Body) :
    ((prepare supply r add idx).1.headers
      = r.headers
        ++ (enumFrom (idx + (randomKeys r.parameters add).length)
              r.defaults.custom_headers).map
            (fun p => (p.2.1, replaceAll p.2.2 rndPat (supply p.1)))
        ++ (if containsKeyA r.defaults.custom_headers (str ("Content-Type")) then []
            else [(str ("Content-Type"),
                   if r.defaults.is_json then str ("application/json")
                   else str ("application/x-www-form-urlencoded"))])) ∧
    ((prepare natSupply (requestNew c10Defaults []) none 0).1.headers.filter
        (fun h => toLowerStr h.1 == str ("content-type"))).length = 3 := by
  constructor
  · by_cases hct : containsKeyA r.defaults.custom_headers (str ("Content-Type")) = true <;>
      simp [prepare, hp, hip, hct]
  · decide

theorem any_key_iff (acc : List (Nat × List Str)) (v : Nat) :
    (acc.any fun g => g.1 == v) = true ↔ v ∈ acc.map Prod.fst := by
  simp [List.any_eq_true, List.mem_map]

theorem gspec_step (l : List (Str × Nat)) (G : List (Nat × List Str)) (k : Str) (v : Nat)
    (h : GSpec l G) : GSpec (l ++ [(k, v)]) (addToGroups G k v) := by
  obtain ⟨h1, h2, h3⟩ := h
  by_cases hv : v ∈ G.map Prod.fst
  · have hany : (G.any fun g => g.1 == v) = true := (any_key_iff G v).mpr hv
    have hred : addToGroups G k v
        = G.map (fun g => if g.1 == v then (g.1, g.2 ++ [k]) else g) := by
      simp [addToGroups, hany]
    have hkeys : (G.map (fun g => if g.1 == v then (g.1, g.2 ++ [k]) else g)).map Prod.fst
        = G.map Prod.fst := by
      rw [List.map_map]
      refine List.map_congr_left ?_
      intro g _
      by_cases hgv : g.1 = v <;> simp [hgv]
    rw [hred]
    refine ⟨by rw [hkeys]; exact h1, ?_, ?_⟩
    · intro g' hg'
      obtain ⟨g, hg, rfl⟩ := List.mem_map.mp hg'
      by_cases hgv : (g.1 == v) = true
      · have hgv' : g.1 = v := by simpa using hgv
        simp only [hgv, if_true]
        simp [List.filter_append, h2 g hg, hgv']
      · have hgv2 : (g.1 == v) = false := Bool.eq_false_iff.mpr hgv
        have hvg : (v == g.1) = false :=
          beq_eq_false_iff_ne.mpr (fun he => hgv (by simp [he]))
        simp only [hgv2, Bool.false_eq_true, if_false]
        simp [List.filter_append, h2 g hg, hvg]
    · intro dd
      rw [hkeys, List.map_append, List.mem_append]
      constructor
      · rintro (hmem | hmem)
        · exact (h3 dd).mp hmem
        · have : dd = v := by simpa using hmem
          rw [this]; exact hv
      · intro hmem; exact Or.inl ((h3 dd).mpr hmem)
  · have hany : (G.any fun g => g.1 == v) = false :=
      Bool.eq_false_iff.mpr (fun hc => hv ((any_key_iff G v).mp hc))
    have hred : addToGroups G k v = G ++ [(v, [k])] := by
      simp [addToGroups, hany]
    have hfl : l.filter (fun p => p.2 == v) = [] := by
      refine List.filter_eq_nil_iff.mpr ?_
      intro p hp hpc
      exact hv ((h3 v).mp (List.mem_map.mpr ⟨p, hp, by simpa using hpc⟩))
    rw [hred]
    refine ⟨?_, ?_, ?_⟩
    · rw [List.map_append, List.nodup_append]
      refine ⟨h1, by simp, ?_⟩
      intro a ha hb
      have : a = v := by simpa using hb
      rw [this] at ha; exact hv ha
    · intro g' hg'
      rcases List.mem_append.mp hg' with hg | hg
      · have hg'fst : g'.1 ∈ G.map Prod.fst := List.mem_map_of_mem _ hg
        have hvg : (v == g'.1) = false :=
          beq_eq_false_iff_ne.mpr (fun he => hv (he ▸ hg'fst))
        simp [List.filter_append, h2 g' hg, hvg]
      · have hg'' : g' = (v, [k]) := by simpa using hg
        rw [hg'']
        simp [List.filter_append, hfl]
    · intro dd
      simp only [List.map_append, List.mem_append]
      constructor
      · rintro (hmem | hmem)
        · exact Or.inl ((h3 dd).mp hmem)
        · have : dd = v := by simpa using hmem
          exact Or.inr (by simp [this])
      · rintro (hmem | hmem)
        · exact Or.inl ((h3 dd).mpr hmem)
        · have : dd = v := by simpa using hmem
          exact Or.inr (by simp [this])

theorem gspec_groups (l : List (Str × Nat)) : GSpec l (groupByDelta l) := by
  have base : GSpec [] ([] : List (Nat × List Str)) := ⟨List.nodup_nil, by simp, by simp⟩
  have main : ∀ (t l₀ : List (Str × Nat)) (G : List (Nat × List Str)), GSpec l₀ G →
      GSpec (l₀ ++ t) (t.foldl (fun acc p => addToGroups acc p.1 p.2) G) := by
    intro t
    induction t with
    | nil => intro l₀ G h; simpa using h
    | cons p t ih =>
      intro l₀ G h
      have h' := gspec_step l₀ G p.1 p.2 h
      have h'' := ih (l₀ ++ [p]) (addToGroups G p.1 p.2) h'
      simpa [List.append_assoc] using h''
  simpa [groupByDelta] using main l [] [] base

theorem groupByDelta_length (l : List (Str × Nat)) :
    (groupByDelta l).length = (l.map Prod.snd).toFinset.card := by
  obtain ⟨h1, _, h3⟩ := gspec_groups l
  have hset : ((groupByDelta l).map Prod.fst).toFinset = (l.map Prod.snd).toFinset := by
    ext dd
    simp only [List.mem_toFinset]
    exact (h3 dd).symm
  calc (groupByDelta l).length
      = ((groupByDelta l).map Prod.fst).length := by rw [List.length_map]
    _ = ((groupByDelta l).map Prod.fst).toFinset.card :=
        (List.toFinset_card_of_nodup h1).symm
    _ = (l.map Prod.snd).toFinset.card := by rw [hset]

theorem proceed_grouping_case (reflected : List (Str × Nat)) (preparedLen : Nat)
    (additional : Str)
    (hne : reflected ≠ []) (hlen1 : reflected.length ≠ 1)
    (hnot2 : ¬(preparedLen = 2 ∧ reflected.length = 2)) :
    proceedReflectedParameters reflected preparedLen additional
      = (if (groupByDelta reflected).length = 2 then
          match (groupByDelta reflected).find? (fun g => g.2.length == 1) with
          | some g => (g.2.head?, true)
          | none => (none, true)
        else (none, true)) := by
  simp only [proceedReflectedParameters, if_neg hne, if_neg hlen1, if_neg hnot2]

/-- Claim C1: on a reflected-parameters map with two or more entries, when
the earlier single-reflection and size-2 rules do not apply,
`proceed_reflected_parameters` groups the names by delta; when exactly
two distinct deltas occur and exactly one of the groups is a singleton it
returns that lone member with `recheck = true`, and with three or more
distinct deltas it returns `(none, true)`. -/
theorem proceed_reflected_grouping (reflected : List (Str × Nat)) (preparedLen : Nat)
    (additional : Str)
    (hlen : 2 ≤ reflected.length)
    (hnot2 : ¬(preparedLen = 2 ∧ reflected.length = 2)) :
    (∀ (dd : Nat) (x : Str),
        (reflected.map Prod.snd).toFinset.card = 2 →
        (reflected.filter (fun p => p.2 == dd)).map Prod.fst = [x] →
        (∀ e ∈ reflected.map Prod.snd, e ≠ dd →
            (reflected.filter (fun p => p.2 == e)).length ≠ 1) →
        proceedReflectedParameters reflected preparedLen additional = (some x, true)) ∧
    (3 ≤ (reflected.map Prod.snd).toFinset.card →
        proceedReflectedParameters reflected preparedLen additional = (none, true)) := by
  have hne : reflected ≠ [] := by
    intro h; rw [h] at hlen; simp at hlen
  have hlen1 : reflected.length ≠ 1 := by omega
  have hred := proceed_grouping_case reflected preparedLen additional hne hlen1 hnot2
  obtain ⟨h1, h2, h3⟩ := gspec_groups reflected
  have hcard := groupByDelta_length reflected
  constructor
  · intro dd x hc2 hsing huniq
    have hglen : (groupByDelta reflected).length = 2 := by rw [hcard, hc2]
    have hfilter_ne : reflected.filter (fun p => p.2 == dd) ≠ [] := by
      intro h0; rw [h0] at hsing; simp at hsing
    have hdd : dd ∈ reflected.map Prod.snd := by
      obtain ⟨q, hq⟩ := List.exists_mem_of_ne_nil _ hfilter_ne
      have hq' := List.mem_filter.mp hq
      exact List.mem_map.mpr ⟨q, hq'.1, by simpa using hq'.2⟩
    obtain ⟨g, hg, hgfst⟩ := List.mem_map.mp ((h3 dd).mp hdd)
    have hg2 : g.2 = [x] := by rw [h2 g hg, hgfst, hsing]
    obtain ⟨g1, g2, hG⟩ := List.length_eq_two.mp hglen
    rw [hred, if_pos hglen]
    have hgmem : g = g1 ∨ g = g2 := by rw [hG] at hg; simpa using hg
    rcases hgmem with he | he
    · have hg12 : g1.2 = [x] := by rw [← he]; exact hg2
      rw [hG, List.find?_cons_of_pos _ (by simp [hg12])]
      simp [hg12]
    · have hg22 : g2.2 = [x] := by rw [← he]; exact hg2
      have hgfst2 : g2.1 = dd := by rw [← he]; exact hgfst
      have hkeys : ((groupByDelta reflected).map Prod.fst).Nodup := h1
      rw [hG] at hkeys
      have hne12 : g1.1 ≠ dd := by
        intro hee
        have h12 : g1.1 ≠ g2.1 := by simpa using hkeys
        exact h12 (hee.trans hgfst2.symm)
      have hg1mem : g1 ∈ groupByDelta reflected := by rw [hG]; simp
      have hg1fst : g1.1 ∈ reflected.map Prod.snd :=
        (h3 g1.1).mpr (List.mem_map_of_mem _ hg1mem)
      have hlen_ne := huniq g1.1 hg1fst hne12
      have hf1 : (g1.2.length == 1) = false := by
        rw [h2 g1 hg1mem]
        simp only [List.length_map]
        exact beq_eq_false_iff_ne.mpr hlen_ne
      rw [hG, List.find?_cons_of_neg _ (by simp [hf1]),
        List.find?_cons_of_pos _ (by simp [hg22])]
      simp [hg22]
  · intro hc3
    have hne2 : (groupByDelta reflected).length ≠ 2 := by rw [hcard]; omega
    rw [hred, if_neg hne2]

/-- Concrete instances of C1: the spec's grouping example and a
three-delta example. -/
theorem proceed_reflected_grouping_witness :
    proceedReflectedParameters
        [(str ("a"), 1), (str ("b"), 1), (str ("c"), 1), (str ("d"), 2)] 5 (str ("x"))
      = (some (str ("d")), true) ∧
    proceedReflectedParameters
        [(str ("a"), 1), (str ("b"), 2), (str ("c"), 3)] 5 (str ("x"))
      = (none, true) :=
  ⟨(proceed_reflected_grouping
      [(str ("a"), 1), (str ("b"), 1), (str ("c"), 1), (str ("d"), 2)] 5 (str ("x"))
      (by decide) (by decide)).1 2 (str ("d")) (by decide) (by decide) (by decide),
   (proceed_reflected_grouping
      [(str ("a"), 1), (str ("b"), 2), (str ("c"), 3)] 5 (str ("x"))
      (by decide) (by decide)).2 (by decide)⟩

/-- Concrete instance of the amended C10 statement. -/
theorem prepare_body_content_type_witness :
    (prepare natSupply (requestNew c10Defaults []) none 0).1.headers
      = (requestNew c10Defaults []).headers
        ++ (enumFrom (0 + (randomKeys [] none).length) c10Defaults.custom_headers).map
            (fun p => (p.2.1, replaceAll p.2.2 rndPat (natSupply p.1)))
        ++ (if containsKeyA c10Defaults.custom_headers (str ("Content-Type")) then []
            else [(str ("Content-Type"),
                   if c10Defaults.is_json then str ("application/json")
                   else str ("application/x-www-form-urlencoded"))]) :=
  (prepare_body_content_type natSupply (requestNew c10Defaults []) none 0 rfl rfl).1

end X8
